import Mathlib

/-!
Verification of the sampling–parsing–persistence–aggregation pipeline of the
`aimakersguild-mac-optimizer` repository.

The Python sources are shallowly embedded:
* strings are `List Char`; Python `str.split()` / `str.split("\n")` become
  `words` / `splitLines`;
* Python `float(...)` is modelled exactly on its decimal-literal sublanguage
  (optional sign, digits, optional fraction part) as a scaled integer
  (`parseFloatDec`), and `int(...)` applied to a float is truncation toward
  zero (`decTrunc`); decimal constants such as `0.05` are exact rationals;
* code that raises (`ValueError` from `int`/`float`) returns `Except Unit _`;
* the SQLite tables are lists of rows in insertion (rowid) order; SQL
  `WHERE`/`GROUP BY`/`ORDER BY`/`LIMIT` become `filter`, grouping by the
  deduplicated key list, `List.insertionSort` and `List.take`;
* external probes (`subprocess.run`) are parameters: each embedded function
  takes the probe's text or the already-parsed probe result as an argument.
-/

/-! ### String primitives (Python `str.split`, substring test) -/

/-- Accumulator-based splitting of a character list into maximal
whitespace-free words, as Python `str.split()` with no argument. -/
def wordsAux (acc : List Char) : List Char → List (List Char)
  | [] => if acc = [] then [] else [acc.reverse]
  | c :: cs =>
    if c.isWhitespace then
      if acc = [] then wordsAux [] cs else acc.reverse :: wordsAux [] cs
    else wordsAux (c :: acc) cs

/-- Python `s.split()`: split on whitespace runs, dropping empty words. -/
def words (s : List Char) : List (List Char) := wordsAux [] s

/-- Accumulator-based splitting at newline characters, keeping empty lines,
as Python `s.split("\n")`. -/
def linesAux (acc : List Char) : List Char → List (List Char)
  | [] => [acc.reverse]
  | c :: cs =>
    if c = '\n' then acc.reverse :: linesAux [] cs
    else linesAux (c :: acc) cs

/-- Python `s.split("\n")`. -/
def splitLines (s : List Char) : List (List Char) := linesAux [] s

/-- Does `s` start with `pat`? -/
def startsWithSub : List Char → List Char → Bool
  | [], _ => true
  | _ :: _, [] => false
  | p :: ps, c :: cs => p = c && startsWithSub ps cs

/-- Python `pat in s`: substring containment. -/
def containsSub (pat : List Char) : List Char → Bool
  | [] => startsWithSub pat []
  | c :: cs => startsWithSub pat (c :: cs) || containsSub pat cs

/-! ### Numeric literal parsing (Python `int(str)` and `float(str)`) -/

instance {ε α : Type} [DecidableEq ε] [DecidableEq α] : DecidableEq (Except ε α) := fun a b =>
  match a, b with
  | .ok x, .ok y => if h : x = y then .isTrue (by rw [h]) else .isFalse (by simp [h])
  | .error x, .error y => if h : x = y then .isTrue (by rw [h]) else .isFalse (by simp [h])
  | .ok _, .error _ => .isFalse (by simp)
  | .error _, .ok _ => .isFalse (by simp)

/-- Value of a digit string, most significant first. -/
def digitsVal (l : List Char) : ℕ := l.foldl (fun a c => 10 * a + (c.toNat - 48)) 0

/-- Python `int(s)` on a token: optional sign followed by a nonempty run of
digits; anything else raises `ValueError`, modelled as `none`. -/
def parseIntZ (s : List Char) : Option ℤ :=
  match s with
  | '-' :: r => if r ≠ [] ∧ r.all Char.isDigit then some (-(digitsVal r : ℤ)) else none
  | '+' :: r => if r ≠ [] ∧ r.all Char.isDigit then some ((digitsVal r : ℤ)) else none
  | r => if r ≠ [] ∧ r.all Char.isDigit then some ((digitsVal r : ℤ)) else none

/-- Split a character list at the first `'.'`, if any. -/
def splitDot : List Char → List Char × Option (List Char)
  | [] => ([], none)
  | c :: r =>
    if c = '.' then ([], some r)
    else
      let p := splitDot r
      (c :: p.1, p.2)

/-- Python `float(s)` on the decimal-literal sublanguage: optional sign,
digits, optional `'.'` and fraction digits, at least one digit in all.
The exact value is returned as a scaled integer `(m, k)` standing for
`m / 10^k` (so `"1.50"` gives `(150, 2)`).  Other inputs (including a bare
`"."` or a second `'.'`) raise `ValueError`, modelled as `none`. -/
def parseFloatDec (s : List Char) : Option (ℤ × ℕ) :=
  let core : List Char → Option (ℤ × ℕ) := fun r =>
    let p := splitDot r
    match p.2 with
    | none =>
      if r ≠ [] ∧ r.all Char.isDigit then some ((digitsVal r : ℤ), 0) else none
    | some frac =>
      if (p.1 ≠ [] ∨ frac ≠ []) ∧ p.1.all Char.isDigit ∧ frac.all Char.isDigit then
        some ((digitsVal p.1 * 10 ^ frac.length + digitsVal frac : ℤ), frac.length)
      else none
  match s with
  | '-' :: r => (core r).map (fun p => (-p.1, p.2))
  | '+' :: r => core r
  | r => core r

/-- The exact rational value of a scaled integer produced by `parseFloatDec`. -/
def decVal (p : ℤ × ℕ) : ℚ := (p.1 : ℚ) / (10 : ℚ) ^ p.2

/-- Python `int(x)` on the float `m / 10^k`: truncation toward zero
(`Int.tdiv` is T-division, which rounds toward zero). -/
def decTrunc (p : ℤ × ℕ) : ℤ := Int.tdiv p.1 ((10 : ℤ) ^ p.2)

/-! ### `collector.get_page_size` (lines 29–39)

`vm_stat` output is a parameter.  The source scans lines containing
`"page size of"`, finds the first word `"of"` with a successor word, and
returns `int(successor)` — which raises `ValueError` on a non-numeric word. -/

/-- First element equal to `"of"` that has a successor; the successor. -/
def afterOf : List (List Char) → Option (List Char)
  | t :: v :: rest => if t = "of".toList then some v else afterOf (v :: rest)
  | _ => none

/-- Scan the lines of `vm_stat` output for the page size, per the source:
a line must contain `"page size of"`; within it the word after the first
`"of"` is converted with `int(...)` (error = `ValueError`); if no line
matches, the fallback is 4096. -/
def pageLoop : List (List Char) → Except Unit ℤ
  | [] => .ok 4096
  | l :: ls =>
    if containsSub "page size of".toList l then
      match afterOf (words l) with
      | some v =>
        match parseIntZ v with
        | some n => .ok n
        | none => .error ()
      | none => pageLoop ls
    else pageLoop ls

/-- Function `get_page_size`, with the `vm_stat` output text as a parameter. -/
def get_page_size (vm_stat_output : List Char) : Except Unit ℤ :=
  pageLoop (splitLines vm_stat_output)

/-! ### `collector.parse_swap_used_mb` (lines 61–80) -/

/-- Python `tok.lower()`. -/
def lowerTok (t : List Char) : List Char := t.map Char.toLower

/-- Python `swap_output.replace("=", " ").split()`. -/
def normTokens (s : List Char) : List (List Char) :=
  words (s.map (fun c => if c = '=' then ' ' else c))

/-- The value token after `"used"`: suffix `M`/`m` is megabytes, `G`/`g`
is gigabytes × 1024, otherwise a raw float MB value; all truncated toward
zero by `int(...)`.  A failing `float(...)` raises (`.error`). -/
def parseSwapVal (v : List Char) : Except Unit ℤ :=
  if v.getLast? = some 'M' ∨ v.getLast? = some 'm' then
    match parseFloatDec v.dropLast with
    | some p => .ok (decTrunc p)
    | none => .error ()
  else if v.getLast? = some 'G' ∨ v.getLast? = some 'g' then
    match parseFloatDec v.dropLast with
    | some p => .ok (decTrunc (p.1 * 1024, p.2))
    | none => .error ()
  else
    match parseFloatDec v with
    | some p => .ok (decTrunc p)
    | none => .error ()

/-- The enumeration loop of `parse_swap_used_mb`: the first token whose
lowercase form is `"used"` *and* which has a successor token selects that
successor; falling off the end returns 0. -/
def swapFromTokens : List (List Char) → Except Unit ℤ
  | t :: v :: rest =>
    if lowerTok t = "used".toList then parseSwapVal v
    else swapFromTokens (v :: rest)
  | _ => .ok 0

/-- Function `parse_swap_used_mb(swap_output)`. -/
def parse_swap_used_mb (swap_output : List Char) : Except Unit ℤ :=
  swapFromTokens (normTokens swap_output)


/-! ### Pressure classification and `collector.get_system_metrics` (lines 83–133)

The probe results (`hw.memsize`, page size, the `vm_stat` page-count
dictionary, parsed swap usage) are parameters; the decimal thresholds
`0.05` and `0.10` are exact rationals. -/

/-- The pressure heuristic of `get_system_metrics` (collector.py lines
113–123), as the spec's `classify(free_mb, inactive_mb, total_mb,
swap_used_mb)`.  `available_mb` is computed but unused, as in the source. -/
def classifyPressure (free_mb inactive_mb total_mb : ℕ) (swap_used_mb : ℤ) : String :=
  let _available_mb := free_mb + inactive_mb
  if (free_mb : ℚ) < 0.05 * (total_mb : ℚ) ∨ swap_used_mb > 256 then "high"
  else if (free_mb : ℚ) < 0.10 * (total_mb : ℚ) ∨ swap_used_mb > 0 then "medium"
  else "low"

/-- Python `pages.get(key, 0)` on the parsed `vm_stat` dictionary, modelled
as an association list. -/
def pagesGet (pages : List (String × ℕ)) (key : String) : ℕ :=
  ((pages.find? (fun p => p.1 = key)).map (fun p => p.2)).getD 0

/-- One row of the `system_snapshot` table (also the snapshot record built
by `get_system_metrics`); all SQLite `INTEGER` columns are `ℤ`. -/
structure SystemSnapshot where
  timestamp : ℤ
  mem_total_mb : ℤ
  mem_used_mb : ℤ
  mem_free_mb : ℤ
  mem_compressed_mb : ℤ
  swap_used_mb : ℤ
  memory_pressure : String
deriving DecidableEq

/-- Function `get_system_metrics` (collector.py lines 83–133) with probe results as
parameters: `timestamp` stands for `int(time.time())`, `mem_total_bytes`
for the `hw.memsize` probe, `page_size` for `get_page_size()`, `pages` for
`parse_vm_stat()` and `swap_used_mb` for
`parse_swap_used_mb(vm.swapusage)`. -/
def get_system_metrics (timestamp : ℤ) (mem_total_bytes page_size : ℕ)
    (pages : List (String × ℕ)) (swap_used_mb : ℤ) : SystemSnapshot :=
  let mem_total_mb := mem_total_bytes / (1024 * 1024)
  let free_pages := pagesGet pages "Pages free"
  let active_pages := pagesGet pages "Pages active"
  let inactive_pages := pagesGet pages "Pages inactive"
  let wired_pages := pagesGet pages "Pages wired down"
  let compressed_pages := pagesGet pages "Pages occupied by compressor"
  let free_mb := free_pages * page_size / (1024 * 1024)
  let inactive_mb := inactive_pages * page_size / (1024 * 1024)
  let active_mb := active_pages * page_size / (1024 * 1024)
  let wired_mb := wired_pages * page_size / (1024 * 1024)
  let compressed_mb := compressed_pages * page_size / (1024 * 1024)
  let used_mb := active_mb + wired_mb
  let pressure := classifyPressure free_mb inactive_mb mem_total_mb swap_used_mb
  { timestamp := timestamp
    mem_total_mb := (mem_total_mb : ℤ)
    mem_used_mb := (used_mb : ℤ)
    mem_free_mb := (free_mb : ℤ)
    mem_compressed_mb := (compressed_mb : ℤ)
    swap_used_mb := swap_used_mb
    memory_pressure := pressure }

/-! ### `metrics_store` and `db_readers`

The two tables are lists of rows in insertion (rowid) order.  SQL time
arithmetic uses `now` for `unixepoch('now')`. -/

/-- One row of the `process_snapshot` table; `cpu_percent` (SQLite `REAL`)
is `ℚ`, `is_foreground` is the stored `INTEGER`. -/
structure ProcessSnapshotRow where
  timestamp : ℤ
  pid : ℤ
  process_name : String
  rss_mb : ℤ
  vms_mb : ℤ
  shared_mb : ℤ
  cpu_percent : ℚ
  is_foreground : ℤ
deriving DecidableEq

/-- A process-snapshot dictionary handed to `insert_process_snapshots`:
each required key may be absent (`none`), in which case `snap[key]` raises
`KeyError`. -/
structure ProcessSnapshotDict where
  timestamp : Option ℤ
  pid : Option ℤ
  process_name : Option String
  rss_mb : Option ℤ
  vms_mb : Option ℤ
  shared_mb : Option ℤ
  cpu_percent : Option ℚ
  is_foreground : Option ℤ

/-- The tuple built for one dictionary inside the `executemany` list
comprehension; `none` models a `KeyError`. -/
def snapToRow (d : ProcessSnapshotDict) : Option ProcessSnapshotRow :=
  match d.timestamp, d.pid, d.process_name, d.rss_mb, d.vms_mb, d.shared_mb,
      d.cpu_percent, d.is_foreground with
  | some ts, some pid, some nm, some rss, some vms, some sh, some cpu, some fg =>
    some ⟨ts, pid, nm, rss, vms, sh, cpu, fg⟩
  | _, _, _, _, _, _, _, _ => none

/-- The whole list comprehension of `insert_process_snapshots`: it is
evaluated before `executemany` runs, so one missing key fails the whole
batch. -/
def rowsOf : List ProcessSnapshotDict → Option (List ProcessSnapshotRow)
  | [] => some []
  | d :: ds =>
    match snapToRow d, rowsOf ds with
    | some r, some rs => some (r :: rs)
    | _, _ => none

/-- Function `metrics_store.insert_system_snapshot`: a single-row append (the new
row receives the largest rowid). -/
def insert_system_snapshot (db : List SystemSnapshot) (s : SystemSnapshot) :
    List SystemSnapshot :=
  db ++ [s]

/-- Function `metrics_store.insert_process_snapshots`: all rows are inserted inside
one transaction and committed together; if building or executing the batch
fails, the close without commit rolls every row back.  The result pairs
the call's outcome with the table contents afterwards. -/
def insert_process_snapshots (db : List ProcessSnapshotRow)
    (snaps : List ProcessSnapshotDict) : Except Unit Unit × List ProcessSnapshotRow :=
  match rowsOf snaps with
  | some rows => (.ok (), db ++ rows)
  | none => (.error (), db)

/-- One step of the descending index scan of `fetch_latest_snapshot`. -/
def latestStep (best : Option SystemSnapshot) (r : SystemSnapshot) : Option SystemSnapshot :=
  match best with
  | none => some r
  | some b => if b.timestamp ≤ r.timestamp then some r else some b

/-- Function `db_readers.fetch_latest_snapshot`: `ORDER BY timestamp DESC LIMIT 1`.
The timestamp index orders equal timestamps by rowid, so the descending
scan yields the most recently inserted row among those with the maximal
timestamp: scanning in insertion order, a later row replaces the current
best when its timestamp is at least as large. -/
def fetch_latest_snapshot (db : List SystemSnapshot) : Option SystemSnapshot :=
  db.foldl latestStep none

/-- The five columns selected by `fetch_system_snapshots`. -/
structure SystemWindowRow where
  timestamp : ℤ
  mem_used_mb : ℤ
  mem_free_mb : ℤ
  mem_compressed_mb : ℤ
  swap_used_mb : ℤ
deriving DecidableEq

/-- The projection of `SELECT timestamp, mem_used_mb, mem_free_mb,
mem_compressed_mb, swap_used_mb`. -/
def projWindow (r : SystemSnapshot) : SystemWindowRow :=
  ⟨r.timestamp, r.mem_used_mb, r.mem_free_mb, r.mem_compressed_mb, r.swap_used_mb⟩

/-- SQL `WHERE timestamp >= unixepoch('now') - (? * 60)`. -/
def inWindow (now window_minutes ts : ℤ) : Prop := now - window_minutes * 60 ≤ ts

instance (now w ts : ℤ) : Decidable (inWindow now w ts) :=
  inferInstanceAs (Decidable (now - w * 60 ≤ ts))

/-- Function `db_readers.fetch_system_snapshots`: filter to the window, order by
timestamp ascending, project the five selected columns. -/
def fetch_system_snapshots (db : List SystemSnapshot) (now window_minutes : ℤ) :
    List SystemWindowRow :=
  ((db.filter (fun r => decide (inWindow now window_minutes r.timestamp))).insertionSort
    (fun a b => a.timestamp ≤ b.timestamp)).map projWindow

/-- One aggregated row of `fetch_top_processes`: SQL `AVG` columns are
`REAL`, hence `ℚ`. -/
structure TopProcessAgg where
  process_name : String
  pid : ℤ
  max_rss_mb : ℤ
  avg_rss_mb : ℚ
  times_seen : ℕ
  foreground_ratio : ℚ
deriving DecidableEq

/-- SQL `MAX` over the (nonempty) list of a group's values. -/
def zmaxD : List ℤ → ℤ
  | [] => 0
  | x :: xs => xs.foldl max x

/-- The `GROUP BY` key `(process_name, pid)`. -/
def topKey (r : ProcessSnapshotRow) : String × ℤ := (r.process_name, r.pid)

/-- The windowed rows belonging to one `(process_name, pid)` group. -/
def groupRows (win : List ProcessSnapshotRow) (k : String × ℤ) : List ProcessSnapshotRow :=
  win.filter (fun r => decide (r.process_name = k.1 ∧ r.pid = k.2))

/-- The `SELECT` aggregates of one group: `MAX(rss_mb)`, `AVG(rss_mb)`,
`COUNT(*)` and `AVG(CAST(is_foreground AS REAL))`. -/
def aggregateGroup (win : List ProcessSnapshotRow) (k : String × ℤ) : TopProcessAgg :=
  let g := groupRows win k
  { process_name := k.1
    pid := k.2
    max_rss_mb := zmaxD (g.map (fun r => r.rss_mb))
    avg_rss_mb := (g.map (fun r => (r.rss_mb : ℚ))).sum / (g.length : ℚ)
    times_seen := g.length
    foreground_ratio := (g.map (fun r => (r.is_foreground : ℚ))).sum / (g.length : ℚ) }

/-- Function `db_readers.fetch_top_processes`: filter to the window, group by
`(process_name, pid)`, aggregate each group, order by `max_rss_mb`
descending, truncate to `limit`. -/
def fetch_top_processes (db : List ProcessSnapshotRow) (now window_minutes : ℤ)
    (limit : ℕ) : List TopProcessAgg :=
  let win := db.filter (fun r => decide (inWindow now window_minutes r.timestamp))
  let keys := (win.map topKey).dedup
  ((keys.map (aggregateGroup win)).insertionSort
    (fun a b => b.max_rss_mb ≤ a.max_rss_mb)).take limit

instance : DecidableRel (fun a b : SystemSnapshot => a.timestamp ≤ b.timestamp) :=
  fun a b => inferInstanceAs (Decidable (a.timestamp ≤ b.timestamp))

instance : IsTotal SystemSnapshot (fun a b => a.timestamp ≤ b.timestamp) :=
  ⟨fun a b => Int.le_total a.timestamp b.timestamp⟩

instance : IsTrans SystemSnapshot (fun a b => a.timestamp ≤ b.timestamp) :=
  ⟨fun _ _ _ h₁ h₂ => le_trans h₁ h₂⟩

instance : DecidableRel (fun a b : TopProcessAgg => b.max_rss_mb ≤ a.max_rss_mb) :=
  fun a b => inferInstanceAs (Decidable (b.max_rss_mb ≤ a.max_rss_mb))

instance : IsTotal TopProcessAgg (fun a b => b.max_rss_mb ≤ a.max_rss_mb) :=
  ⟨fun a b => Int.le_total b.max_rss_mb a.max_rss_mb⟩

instance : IsTrans TopProcessAgg (fun a b => b.max_rss_mb ≤ a.max_rss_mb) :=
  ⟨fun _ _ _ h₁ h₂ => le_trans h₂ h₁⟩

/-! ### `collector.main` (lines 201–227)

One cycle of the `while True` loop either completes (a system snapshot and
a — possibly empty — list of process rows are persisted and one success
line is printed) or raises somewhere inside the `try` block (probe, parse
or store); the `except Exception` handler prints one error line and the
loop sleeps and continues.  A failure may strike after the system insert
already committed, so the failure case carries the partial system row.
Schema initialization (`init_db`) runs before the loop and is not guarded:
its failure terminates the process. -/

/-- The observable outcome of the `try` block of one collector cycle. -/
inductive CycleOutcome where
  | success (sys : SystemSnapshot) (procs : List ProcessSnapshotRow)
  | failure (committedSys : Option SystemSnapshot) (msg : String)

/-- The collector's state: the two tables plus the printed log. -/
structure LoopState where
  sysDb : List SystemSnapshot
  procDb : List ProcessSnapshotRow
  log : List String

/-- One iteration of the `while True` body.  On success the system row is
appended, process rows are appended when the list is nonempty (the
`if process_snapshots:` guard) and one collection line is printed; on
failure whatever committed before the exception stays, and the handler
prints exactly one error line.  Both branches fall through to
`time.sleep` — the function is total and never signals termination. -/
def runCycle (st : LoopState) (outcome : CycleOutcome) : LoopState :=
  match outcome with
  | .success sys procs =>
    { sysDb := insert_system_snapshot st.sysDb sys
      procDb := if procs = [] then st.procDb else st.procDb ++ procs
      log := st.log ++ ["Collected snapshot at " ++ toString sys.timestamp] }
  | .failure committedSys msg =>
    { sysDb :=
        match committedSys with
        | some sys => insert_system_snapshot st.sysDb sys
        | none => st.sysDb
      procDb := st.procDb
      log := st.log ++ ["Error in collection iteration: " ++ msg] }

/-- Running `n` ticks of the collector loop under an arbitrary stream of cycle
outcomes. -/
def runLoop (init : LoopState) (outcomes : ℕ → CycleOutcome) : ℕ → LoopState
  | 0 => init
  | n + 1 => runCycle (runLoop init outcomes n) (outcomes n)

/-- Function `collector.main` observed for `n` ticks: `init_db` runs unguarded
before the loop, so its failure is fatal (`none` — the process exits);
otherwise the loop state after `n` ticks is reached whatever the cycle
outcomes are. -/
def collectorMain (initDbResult : Except String Unit) (st0 : LoopState)
    (outcomes : ℕ → CycleOutcome) (n : ℕ) : Option LoopState :=
  match initDbResult with
  | .error _ => none
  | .ok () => some (runLoop st0 outcomes n)

/-! ## Claim theorems -/

/-- C1: for all non-negative `free_mb`, `total_mb` and `swap_used_mb` (and
any `inactive_mb`), the classification returns `"high"` when
`free_mb < 0.05 * total_mb` or `swap_used_mb > 256` (checked first, so it
wins every overlap); otherwise `"medium"` when `free_mb < 0.10 * total_mb`
or `swap_used_mb > 0`; otherwise `"low"`. -/
theorem classify_pressure_correct (free_mb inactive_mb total_mb : ℕ) (swap_used_mb : ℤ)
    (hswap : 0 ≤ swap_used_mb) :
    (((free_mb : ℚ) < 0.05 * (total_mb : ℚ) ∨ swap_used_mb > 256) →
      classifyPressure free_mb inactive_mb total_mb swap_used_mb = "high") ∧
    (¬((free_mb : ℚ) < 0.05 * (total_mb : ℚ) ∨ swap_used_mb > 256) →
      ((free_mb : ℚ) < 0.10 * (total_mb : ℚ) ∨ swap_used_mb > 0) →
      classifyPressure free_mb inactive_mb total_mb swap_used_mb = "medium") ∧
    (¬((free_mb : ℚ) < 0.05 * (total_mb : ℚ) ∨ swap_used_mb > 256) →
      ¬((free_mb : ℚ) < 0.10 * (total_mb : ℚ) ∨ swap_used_mb > 0) →
      classifyPressure free_mb inactive_mb total_mb swap_used_mb = "low") := by
  unfold classifyPressure
  refine ⟨fun h => ?_, fun h1 h2 => ?_, fun h1 h2 => ?_⟩
  · rw [if_pos h]
  · rw [if_neg h1, if_pos h2]
  · rw [if_neg h1, if_neg h2]

/-- Witness for C1, at the spec's own test points (`total = 100`):
`free = 4 = 0.04·total` is high, `free = 8 = 0.08·total` is medium,
`free = 50 = 0.5·total` is low. -/
theorem classify_pressure_correct_w :
    classifyPressure 4 0 100 0 = "high" ∧
    classifyPressure 8 0 100 0 = "medium" ∧
    classifyPressure 50 0 100 0 = "low" :=
  ⟨(classify_pressure_correct 4 0 100 0 (by norm_num)).1 (by norm_num),
   (classify_pressure_correct 8 0 100 0 (by norm_num)).2.1 (by norm_num) (by norm_num),
   (classify_pressure_correct 50 0 100 0 (by norm_num)).2.2 (by norm_num) (by norm_num)⟩

/-- C2 (counterexample): the claim's combined conversion
`mem_used_mb = ((active_pages + wired_pages) * page_size) // (1024*1024)`
fails: with 32 active and 32 wired pages of 16384 bytes the source
converts each count separately (`0 + 0 = 0` MB) while the combined form
gives `(64 * 16384) // 1048576 = 1` MB. -/
theorem mem_used_mb_combined_cex :
    ¬ ((get_system_metrics 0 0 16384
          [("Pages active", 32), ("Pages wired down", 32)] 0).mem_used_mb
        = (((32 + 32) * 16384 / (1024 * 1024) : ℕ) : ℤ)) := by
  decide

/-- C2 (amended): `mem_used_mb` is the active page count converted to MB
plus the wired page count converted to MB, each by
`pages * page_size // (1024*1024)` with floor division *before* the sum
(equal to the claim's combined form only when no truncation interacts);
it is not required to equal `mem_total_mb - mem_free_mb`. -/
theorem mem_used_mb_eq (ts : ℤ) (mem_total_bytes page_size : ℕ)
    (pages : List (String × ℕ)) (swap : ℤ) :
    (get_system_metrics ts mem_total_bytes page_size pages swap).mem_used_mb
      = ((pagesGet pages "Pages active" * page_size / (1024 * 1024) : ℕ) : ℤ)
        + ((pagesGet pages "Pages wired down" * page_size / (1024 * 1024) : ℕ) : ℤ) := by
  simp only [get_system_metrics]
  push_cast
  ring

/-- C10: the stored `memory_pressure` does not depend on the inactive page
count: two probe results agreeing on the free, active, wired and
compressed page counts (and on total memory, page size and swap usage) but
differing arbitrarily in `"Pages inactive"` classify identically. -/
theorem pressure_ignores_inactive (ts : ℤ) (mem_total_bytes page_size : ℕ)
    (pages pages' : List (String × ℕ)) (swap : ℤ)
    (hfree : pagesGet pages "Pages free" = pagesGet pages' "Pages free")
    (hact : pagesGet pages "Pages active" = pagesGet pages' "Pages active")
    (hwired : pagesGet pages "Pages wired down" = pagesGet pages' "Pages wired down")
    (hcomp : pagesGet pages "Pages occupied by compressor"
      = pagesGet pages' "Pages occupied by compressor") :
    (get_system_metrics ts mem_total_bytes page_size pages swap).memory_pressure
      = (get_system_metrics ts mem_total_bytes page_size pages' swap).memory_pressure := by
  simp only [get_system_metrics, classifyPressure]
  rw [hfree]

/-- Witness for C10: inactive page counts 0 and 999999 with all other
counters equal classify identically. -/
theorem pressure_ignores_inactive_w :
    (get_system_metrics 7 0 16384
        [("Pages free", 1000), ("Pages inactive", 0)] 0).memory_pressure
      = (get_system_metrics 7 0 16384
        [("Pages free", 1000), ("Pages inactive", 999999)] 0).memory_pressure :=
  pressure_ignores_inactive 7 0 16384 _ _ 0 (by decide) (by decide) (by decide) (by decide)

/-- Helper for C3: if no token lowercases to `"used"`, the scan falls off
the end and yields 0 without error. -/
theorem swapFromTokens_no_used : ∀ ts : List (List Char),
    (∀ t ∈ ts, lowerTok t ≠ "used".toList) → swapFromTokens ts = .ok 0
  | [], _ => rfl
  | [_], _ => rfl
  | t :: v :: rest, h => by
    have ht : lowerTok t ≠ "used".toList := h t (List.mem_cons_self t _)
    have ih := swapFromTokens_no_used (v :: rest)
      (fun x hx => h x (List.mem_cons_of_mem _ hx))
    simp only [swapFromTokens, if_neg ht]
    exact ih

/-- C3: swap parsing normalizes `=` to whitespace, tokenizes, and reads the
token after the first (case-insensitive) `"used"`: an `M`/`m` suffix is a
megabyte value truncated toward zero, a `G`/`g` suffix is the value × 1024
truncated toward zero, no suffix is a raw float MB value; with no `"used"`
token the result is 0 and no error is raised.  Concretely,
`parse_swap_used_mb "total = 2.00G used = 1.50G free = 0.50G" = 1536` and
`parse_swap_used_mb "total = 100M" = 0`. -/
theorem swap_parsing_correct :
    (∀ s : List Char, (∀ t ∈ normTokens s, lowerTok t ≠ "used".toList) →
      parse_swap_used_mb s = .ok 0) ∧
    (∀ (u v : List Char) (rest : List (List Char)) (p : ℤ × ℕ),
      lowerTok u = "used".toList →
      (v.getLast? = some 'M' ∨ v.getLast? = some 'm') →
      parseFloatDec v.dropLast = some p →
      swapFromTokens (u :: v :: rest) = .ok (decTrunc p)) ∧
    (∀ (u v : List Char) (rest : List (List Char)) (p : ℤ × ℕ),
      lowerTok u = "used".toList →
      ¬(v.getLast? = some 'M' ∨ v.getLast? = some 'm') →
      (v.getLast? = some 'G' ∨ v.getLast? = some 'g') →
      parseFloatDec v.dropLast = some p →
      swapFromTokens (u :: v :: rest) = .ok (decTrunc (p.1 * 1024, p.2))) ∧
    (∀ (u v : List Char) (rest : List (List Char)) (p : ℤ × ℕ),
      lowerTok u = "used".toList →
      ¬(v.getLast? = some 'M' ∨ v.getLast? = some 'm') →
      ¬(v.getLast? = some 'G' ∨ v.getLast? = some 'g') →
      parseFloatDec v = some p →
      swapFromTokens (u :: v :: rest) = .ok (decTrunc p)) ∧
    parse_swap_used_mb "total = 2.00G used = 1.50G free = 0.50G".toList = .ok 1536 ∧
    parse_swap_used_mb "total = 100M".toList = .ok 0 := by
  refine ⟨fun s h => swapFromTokens_no_used _ h,
    fun u v rest p hu hM hp => ?_,
    fun u v rest p hu hM hG hp => ?_,
    fun u v rest p hu hM hG hp => ?_,
    by decide, by decide⟩
  · simp only [swapFromTokens, if_pos hu, parseSwapVal, if_pos hM, hp]
  · simp only [swapFromTokens, if_pos hu, parseSwapVal, if_neg hM, if_pos hG, hp]
  · simp only [swapFromTokens, if_pos hu, parseSwapVal, if_neg hM, if_neg hG, hp]

/-- Witness for C3, discharging each hypothesis at concrete tokens:
an uppercased `"USED"` token followed by `"2.50M"`, `"1.50G"` and `"512"`
respectively, plus the empty-token-list case. -/
theorem swap_parsing_correct_w :
    parse_swap_used_mb "total 4G".toList = .ok 0 ∧
    swapFromTokens ["USED".toList, "2.50M".toList] = .ok 2 ∧
    swapFromTokens ["USED".toList, "1.50G".toList] = .ok 1536 ∧
    swapFromTokens ["USED".toList, "512".toList] = .ok 512 :=
  ⟨swap_parsing_correct.1 "total 4G".toList (by decide),
   by
    have h := swap_parsing_correct.2.1 "USED".toList "2.50M".toList [] (250, 2)
      (by decide) (by decide) (by decide)
    simpa using h,
   by
    have h := swap_parsing_correct.2.2.1 "USED".toList "1.50G".toList [] (150, 2)
      (by decide) (by decide) (by decide) (by decide)
    simpa using h,
   by
    have h := swap_parsing_correct.2.2.2.1 "USED".toList "512".toList [] (512, 0)
      (by decide) (by decide) (by decide) (by decide)
    simpa using h⟩

/-- C4: the code at the claim's failing input.  The claim (and the spec's
"this default must never raise") says any unparsable "page size of N
bytes" phrase falls back to 4096, but the source calls `int(...)` on the
word after `"of"`, which raises `ValueError` on a non-numeric word; a
valid phrase and an absent phrase do behave as claimed. -/
theorem page_size_unparsable_raises :
    get_page_size "page size of abc bytes".toList = .error () ∧
    get_page_size "Mach Virtual Memory Statistics: (page size of 16384 bytes)".toList
      = .ok 16384 ∧
    get_page_size "no such phrase here".toList = .ok 4096 := by
  refine ⟨by decide, by decide, by decide⟩

/-- Helper for C7: every row the descending scan can settle on has a
timestamp bounded by `s.timestamp` when every scanned row and the
accumulator are so bounded. -/
theorem latestStep_bound (s : SystemSnapshot) :
    ∀ (db : List SystemSnapshot) (acc : Option SystemSnapshot),
      (∀ r ∈ db, r.timestamp ≤ s.timestamp) →
      (∀ b, acc = some b → b.timestamp ≤ s.timestamp) →
      ∀ b, db.foldl latestStep acc = some b → b.timestamp ≤ s.timestamp
  | [], _, _, hacc, b, hb => hacc b hb
  | r :: db, acc, hdb, hacc, b, hb => by
    have hr : r.timestamp ≤ s.timestamp := hdb r (List.mem_cons_self r db)
    refine latestStep_bound s db (latestStep acc r)
      (fun x hx => hdb x (List.mem_cons_of_mem _ hx)) ?_ b hb
    intro c hc
    cases hA : acc with
    | none =>
      rw [hA] at hc
      simp only [latestStep] at hc
      cases hc
      exact hr
    | some a =>
      rw [hA] at hc
      simp only [latestStep] at hc
      by_cases hle : a.timestamp ≤ r.timestamp
      · rw [if_pos hle] at hc
        cases hc
        exact hr
      · rw [if_neg hle] at hc
        cases hc
        exact hacc c hA

/-- C7: inserting a snapshot whose timestamp is at least every stored
timestamp and then fetching the latest snapshot returns exactly that
snapshot, all seven fields included (the fetched row *is* `s`). -/
theorem insert_then_fetch_latest (db : List SystemSnapshot) (s : SystemSnapshot)
    (h : ∀ r ∈ db, r.timestamp ≤ s.timestamp) :
    fetch_latest_snapshot (insert_system_snapshot db s) = some s := by
  unfold insert_system_snapshot fetch_latest_snapshot
  rw [List.foldl_append]
  cases hX : db.foldl latestStep none with
  | none => simp [latestStep]
  | some b =>
    have hb := latestStep_bound s db none h (by intro c hc; cases hc) b hX
    simp [latestStep, if_pos hb]

/-- Witness for C7: a two-row table with timestamps 5 and 7, then
inserting a row with timestamp 9. -/
theorem insert_then_fetch_latest_w :
    fetch_latest_snapshot
        (insert_system_snapshot
          [⟨5, 8192, 4000, 1000, 500, 0, "low"⟩, ⟨7, 8192, 4100, 900, 500, 0, "low"⟩]
          ⟨9, 8192, 4200, 800, 500, 10, "medium"⟩)
      = some ⟨9, 8192, 4200, 800, 500, 10, "medium"⟩ :=
  insert_then_fetch_latest _ _ (by decide)

/-- Helper for C8: a successfully built batch has one tuple per input
dictionary. -/
theorem rowsOf_length : ∀ (snaps : List ProcessSnapshotDict) (rows : List ProcessSnapshotRow),
    rowsOf snaps = some rows → rows.length = snaps.length
  | [], rows, h => by
    simp only [rowsOf] at h
    cases h
    rfl
  | d :: ds, rows, h => by
    simp only [rowsOf] at h
    cases h1 : snapToRow d with
    | none => rw [h1] at h; exact absurd h (by simp)
    | some r =>
      cases h2 : rowsOf ds with
      | none => rw [h1, h2] at h; exact absurd h (by simp)
      | some rs =>
        rw [h1, h2] at h
        cases h
        simpa using rowsOf_length ds rs h2

/-- C8: `insert_process_snapshots` is atomic and accepts the empty batch:
an empty list commits nothing and reports success; when every dictionary
yields its tuple the whole batch is appended (one row per snapshot); when
any dictionary raises (`KeyError`), nothing is appended — the table is
exactly as before. -/
theorem insert_process_atomic (db : List ProcessSnapshotRow)
    (snaps : List ProcessSnapshotDict) (rs : List ProcessSnapshotRow) :
    insert_process_snapshots db [] = (.ok (), db) ∧
    (rowsOf snaps = some rs →
      insert_process_snapshots db snaps = (.ok (), db ++ rs) ∧ rs.length = snaps.length) ∧
    (rowsOf snaps = none → insert_process_snapshots db snaps = (.error (), db)) := by
  refine ⟨by simp [insert_process_snapshots, rowsOf], fun h => ?_, fun h => ?_⟩
  · exact ⟨by simp [insert_process_snapshots, h], rowsOf_length snaps rs h⟩
  · simp [insert_process_snapshots, h]

/-- Witness for C8: a complete dictionary commits its row; a dictionary
missing `timestamp` rolls the whole batch back. -/
theorem insert_process_atomic_w :
    (insert_process_snapshots [⟨1, 2, "a", 3, 4, 5, 0, 0⟩]
        [⟨some 9, some 2, some "a", some 6, some 7, some 8, some 0, some 1⟩]
      = (.ok (), [⟨1, 2, "a", 3, 4, 5, 0, 0⟩] ++ [⟨9, 2, "a", 6, 7, 8, 0, 1⟩])) ∧
    (insert_process_snapshots [⟨1, 2, "a", 3, 4, 5, 0, 0⟩]
        [⟨none, some 2, some "a", some 6, some 7, some 8, some 0, some 1⟩]
      = (.error (), [⟨1, 2, "a", 3, 4, 5, 0, 0⟩])) :=
  ⟨((insert_process_atomic [⟨1, 2, "a", 3, 4, 5, 0, 0⟩]
      [⟨some 9, some 2, some "a", some 6, some 7, some 8, some 0, some 1⟩]
      [⟨9, 2, "a", 6, 7, 8, 0, 1⟩]).2.1 (by simp [rowsOf, snapToRow])).1,
   (insert_process_atomic [⟨1, 2, "a", 3, 4, 5, 0, 0⟩]
      [⟨none, some 2, some "a", some 6, some 7, some 8, some 0, some 1⟩]
      []).2.2 (by simp [rowsOf, snapToRow])⟩

/-- Helper for C9: each cycle, failed or not, prints exactly one line. -/
theorem runCycle_log_length (st : LoopState) (om : CycleOutcome) :
    (runCycle st om).log.length = st.log.length + 1 := by
  cases om <;> simp [runCycle]

/-- C9: the sampling loop never terminates on a transient failure: when
schema initialization succeeds, the loop reaches every tick `n` whatever
each cycle's outcome is, printing exactly one line per cycle; a failed
cycle appends exactly its one-line diagnostic and proceeds; only a schema
initialization error, which happens before the loop, is fatal (no loop
state is ever reached). -/
theorem loop_survives (initDbResult : Except String Unit) (st0 : LoopState)
    (outcomes : ℕ → CycleOutcome) (n : ℕ) :
    (initDbResult = .ok () →
      collectorMain initDbResult st0 outcomes n = some (runLoop st0 outcomes n)) ∧
    (runLoop st0 outcomes n).log.length = st0.log.length + n ∧
    (∀ committedSys msg, outcomes n = .failure committedSys msg →
      (runLoop st0 outcomes (n + 1)).log
        = (runLoop st0 outcomes n).log ++ ["Error in collection iteration: " ++ msg]) ∧
    (∀ e, initDbResult = .error e → collectorMain initDbResult st0 outcomes n = none) := by
  refine ⟨fun h => by rw [h]; rfl, ?_, fun c msg h => ?_, fun e h => by rw [h]; rfl⟩
  · induction n with
    | zero => rfl
    | succ m ih =>
      calc (runLoop st0 outcomes (m + 1)).log.length
          = (runLoop st0 outcomes m).log.length + 1 :=
            runCycle_log_length (runLoop st0 outcomes m) (outcomes m)
        _ = st0.log.length + (m + 1) := by rw [ih]; ring
  · show (runCycle (runLoop st0 outcomes n) (outcomes n)).log = _
    rw [h]
    rfl

/-- Witness for C9: two ticks under an always-failing outcome stream still
reach the loop state, and the failing third cycle logs its diagnostic. -/
theorem loop_survives_w :
    (collectorMain (.ok ()) ⟨[], [], []⟩ (fun _ => .failure none "boom") 2
      = some (runLoop ⟨[], [], []⟩ (fun _ => .failure none "boom") 2)) ∧
    (runLoop ⟨[], [], []⟩ (fun _ => .failure none "boom") 2).log.length = 0 + 2 ∧
    (runLoop ⟨[], [], []⟩ (fun _ => .failure none "boom") 3).log
      = (runLoop ⟨[], [], []⟩ (fun _ => .failure none "boom") 2).log
        ++ ["Error in collection iteration: " ++ "boom"] :=
  ⟨(loop_survives (.ok ()) ⟨[], [], []⟩ (fun _ => .failure none "boom") 2).1 rfl,
   (loop_survives (.ok ()) ⟨[], [], []⟩ (fun _ => .failure none "boom") 2).2.1,
   (loop_survives (.ok ()) ⟨[], [], []⟩ (fun _ => .failure none "boom") 2).2.2.1 none "boom" rfl⟩

/-- C6: the windowed fetch returns exactly the rows with
`timestamp ≥ now - window*60` (as a permutation of the filtered table,
counting multiplicity), sorted ascending by timestamp; a row exactly at
the boundary `now - window*60` is included, and every strictly older row
is excluded from the window. -/
theorem windowed_fetch_correct (db : List SystemSnapshot) (now w : ℤ) :
    List.Perm (fetch_system_snapshots db now w)
      ((db.filter (fun r => decide (inWindow now w r.timestamp))).map projWindow) ∧
    (fetch_system_snapshots db now w).Pairwise
      (fun a b : SystemWindowRow => a.timestamp ≤ b.timestamp) ∧
    (∀ r ∈ db, r.timestamp = now - w * 60 →
      projWindow r ∈ fetch_system_snapshots db now w) ∧
    (∀ r ∈ db, r.timestamp < now - w * 60 →
      r ∉ db.filter (fun r => decide (inWindow now w r.timestamp))) := by
  refine ⟨?_, ?_, fun r hr hts => ?_, fun r hr hlt hmem => ?_⟩
  · exact List.Perm.map projWindow (List.perm_insertionSort _ _)
  · exact List.Pairwise.map projWindow (fun a b h => h)
      (List.sorted_insertionSort (fun a b : SystemSnapshot => a.timestamp ≤ b.timestamp) _)
  · refine List.mem_map_of_mem projWindow ?_
    refine (List.mem_insertionSort _).mpr ?_
    refine List.mem_filter.mpr ⟨hr, ?_⟩
    exact decide_eq_true (by rw [inWindow, hts])
  · have := of_decide_eq_true (List.mem_filter.mp hmem).2
    rw [inWindow] at this
    omega

/-- Witness for C6: a single row exactly at the boundary
(`timestamp = 160 - 1*60 = 100`) is returned by the windowed fetch. -/
theorem windowed_fetch_correct_w :
    projWindow ⟨100, 8192, 4000, 1000, 500, 0, "low"⟩
      ∈ fetch_system_snapshots [⟨100, 8192, 4000, 1000, 500, 0, "low"⟩] 160 1 :=
  (windowed_fetch_correct [⟨100, 8192, 4000, 1000, 500, 0, "low"⟩] 160 1).2.2.1
    ⟨100, 8192, 4000, 1000, 500, 0, "low"⟩ (List.mem_singleton.mpr rfl) (by decide)

/-- Helper for C5: the seed of a max-fold bounds the fold. -/
theorem le_foldl_max_init : ∀ (xs : List ℤ) (a : ℤ), a ≤ xs.foldl max a
  | [], a => le_refl a
  | x :: xs, a => le_trans (le_max_left a x) (le_foldl_max_init xs (max a x))

/-- Helper for C5: every element of a max-fold's list bounds the fold. -/
theorem le_foldl_max_mem : ∀ (xs : List ℤ) (a x : ℤ), x ∈ xs → x ≤ xs.foldl max a
  | y :: ys, a, x, hx => by
    rcases List.mem_cons.mp hx with h | h
    · subst h
      exact le_trans (le_max_right a x) (le_foldl_max_init ys (max a x))
    · exact le_foldl_max_mem ys (max a y) x h

/-- Helper for C5: a max-fold returns its seed or one of its elements. -/
theorem foldl_max_mem_or : ∀ (xs : List ℤ) (a : ℤ), xs.foldl max a = a ∨ xs.foldl max a ∈ xs
  | [], _ => Or.inl rfl
  | x :: xs, a => by
    rcases foldl_max_mem_or xs (max a x) with h | h
    · rcases max_choice a x with h1 | h1
      · left
        show xs.foldl max (max a x) = a
        rw [h, h1]
      · right
        show xs.foldl max (max a x) ∈ x :: xs
        rw [h, h1]
        exact List.mem_cons_self x xs
    · exact Or.inr (List.mem_cons_of_mem x h)

/-- Helper for C5: SQL `MAX` over a nonempty group is attained. -/
theorem zmaxD_mem : ∀ l : List ℤ, l ≠ [] → zmaxD l ∈ l
  | [], h => absurd rfl h
  | x :: xs, _ => by
    show xs.foldl max x ∈ x :: xs
    rcases foldl_max_mem_or xs x with h | h
    · rw [h]; exact List.mem_cons_self x xs
    · exact List.mem_cons_of_mem x h

/-- Helper for C5: SQL `MAX` bounds every group value. -/
theorem le_zmaxD : ∀ (l : List ℤ) (x : ℤ), x ∈ l → x ≤ zmaxD l
  | y :: ys, x, hx => by
    show x ≤ ys.foldl max y
    rcases List.mem_cons.mp hx with h | h
    · subst h; exact le_foldl_max_init ys x
    · exact le_foldl_max_mem ys y x h

/-- The three process samples of the spec's aggregation test:
`(name="X", pid=1)` with rss 10, 20, 30 and `is_foreground` 1, 0, 1. -/
def dbEx : List ProcessSnapshotRow :=
  [⟨0, 1, "X", 10, 0, 0, 0, 1⟩, ⟨0, 1, "X", 20, 0, 0, 0, 0⟩, ⟨0, 1, "X", 30, 0, 0, 0, 1⟩]

/-- The aggregate the spec expects for `dbEx`. -/
def aggEx : TopProcessAgg := ⟨"X", 1, 30, 20, 3, 2 / 3⟩

/-- The group of window rows matching `aggEx`'s key in `dbEx`. -/
def gEx : List ProcessSnapshotRow :=
  (dbEx.filter (fun r => decide (inWindow 0 10 r.timestamp))).filter
    (fun r => decide (r.process_name = aggEx.process_name ∧ r.pid = aggEx.pid))

/-- C5: `fetch_top_processes` returns at most `limit` aggregates, ordered
by `max_rss_mb` descending; each returned aggregate describes the nonempty
group of window rows with its `(process_name, pid)` key: `times_seen` is
the group size, `max_rss_mb` is an attained upper bound of the group's
`rss_mb`, `avg_rss_mb` and `foreground_ratio` are the group averages of
`rss_mb` and `is_foreground`, and when the stored `is_foreground` values
are 0/1 the ratio lies in `[0, 1]`.  On the spec's three-sample example it
returns exactly max 30, avg 20, seen 3, ratio 2/3. -/
theorem top_processes_correct :
    (∀ (db : List ProcessSnapshotRow) (now w : ℤ) (limit : ℕ),
      (fetch_top_processes db now w limit).length ≤ limit ∧
      (fetch_top_processes db now w limit).Pairwise
        (fun a b : TopProcessAgg => b.max_rss_mb ≤ a.max_rss_mb) ∧
      (∀ t ∈ fetch_top_processes db now w limit, ∀ g : List ProcessSnapshotRow,
        g = (db.filter (fun r => decide (inWindow now w r.timestamp))).filter
            (fun r => decide (r.process_name = t.process_name ∧ r.pid = t.pid)) →
        g ≠ [] ∧
        t.times_seen = g.length ∧
        t.max_rss_mb ∈ g.map (fun r => r.rss_mb) ∧
        (∀ x ∈ g.map (fun r => r.rss_mb), x ≤ t.max_rss_mb) ∧
        t.avg_rss_mb * (g.length : ℚ) = (g.map (fun r => (r.rss_mb : ℚ))).sum ∧
        t.foreground_ratio * (g.length : ℚ)
          = (g.map (fun r => (r.is_foreground : ℚ))).sum ∧
        ((∀ r ∈ db, r.is_foreground = 0 ∨ r.is_foreground = 1) →
          0 ≤ t.foreground_ratio ∧ t.foreground_ratio ≤ 1))) ∧
    fetch_top_processes dbEx 0 10 25 = [aggEx] := by
  constructor
  · intro db now w limit
    refine ⟨List.length_take_le _ _, ?_, ?_⟩
    · exact List.Pairwise.sublist (List.take_sublist _ _)
        (List.sorted_insertionSort (fun a b : TopProcessAgg => b.max_rss_mb ≤ a.max_rss_mb) _)
    · intro t ht g hg
      have ht2 : t ∈ ((db.filter
          (fun r => decide (inWindow now w r.timestamp))).map topKey).dedup.map
          (aggregateGroup (db.filter (fun r => decide (inWindow now w r.timestamp)))) :=
        (List.mem_insertionSort _).mp (List.mem_of_mem_take ht)
      obtain ⟨k, hk, rfl⟩ := List.mem_map.mp ht2
      have hpn : (aggregateGroup
          (db.filter (fun r => decide (inWindow now w r.timestamp))) k).process_name = k.1 := rfl
      have hpid : (aggregateGroup
          (db.filter (fun r => decide (inWindow now w r.timestamp))) k).pid = k.2 := rfl
      rw [hpn, hpid] at hg
      have hgr : g = groupRows (db.filter (fun r => decide (inWindow now w r.timestamp))) k := hg
      subst hgr
      obtain ⟨r, hrwin, hrk⟩ := List.mem_map.mp (List.mem_dedup.mp hk)
      have hrg : r ∈ groupRows (db.filter (fun r => decide (inWindow now w r.timestamp))) k := by
        refine List.mem_filter.mpr ⟨hrwin, decide_eq_true ⟨?_, ?_⟩⟩
        · rw [← hrk]; rfl
        · rw [← hrk]; rfl
      have hne : groupRows (db.filter (fun r => decide (inWindow now w r.timestamp))) k ≠ [] :=
        List.ne_nil_of_mem hrg
      have hlen0 : (groupRows (db.filter
          (fun r => decide (inWindow now w r.timestamp))) k).length ≠ 0 :=
        fun h => hne (List.length_eq_zero.mp h)
      have hlenq : ((groupRows (db.filter
          (fun r => decide (inWindow now w r.timestamp))) k).length : ℚ) ≠ 0 :=
        Nat.cast_ne_zero.mpr hlen0
      refine ⟨hne, rfl, ?_, ?_, div_mul_cancel₀ _ hlenq, div_mul_cancel₀ _ hlenq, fun hfg => ?_⟩
      · refine zmaxD_mem _ (fun hmap => hne (List.map_eq_nil_iff.mp hmap))
      · intro x hx
        exact le_zmaxD _ x hx
      · have hmemdb : ∀ s ∈ groupRows (db.filter
            (fun r => decide (inWindow now w r.timestamp))) k, s ∈ db := by
          intro s hs
          exact (List.mem_filter.mp ((List.mem_filter.mp hs).1)).1
        have hbound : ∀ x ∈ (groupRows (db.filter
            (fun r => decide (inWindow now w r.timestamp))) k).map
              (fun r => (r.is_foreground : ℚ)), 0 ≤ x ∧ x ≤ 1 := by
          intro x hx
          obtain ⟨s, hs, rfl⟩ := List.mem_map.mp hx
          rcases hfg s (hmemdb s hs) with h0 | h1
          · rw [h0]; norm_num
          · rw [h1]; norm_num
        have hpos : (0 : ℚ) < ((groupRows (db.filter
            (fun r => decide (inWindow now w r.timestamp))) k).length : ℚ) := by
          exact_mod_cast Nat.pos_of_ne_zero hlen0
        constructor
        · exact div_nonneg (List.sum_nonneg fun x hx => (hbound x hx).1) (le_of_lt hpos)
        · show ((groupRows (db.filter
              (fun r => decide (inWindow now w r.timestamp))) k).map
                (fun r => (r.is_foreground : ℚ))).sum
              / ((groupRows (db.filter
              (fun r => decide (inWindow now w r.timestamp))) k).length : ℚ) ≤ 1
          rw [div_le_one hpos]
          have hs := List.sum_le_card_nsmul ((groupRows (db.filter
              (fun r => decide (inWindow now w r.timestamp))) k).map
                (fun r => (r.is_foreground : ℚ))) 1 (fun x hx => (hbound x hx).2)
          simpa [nsmul_eq_mul] using hs
  · have hfilter : dbEx.filter (fun r => decide (inWindow 0 10 r.timestamp)) = dbEx := by decide
    have hkeys : (dbEx.map topKey).dedup = [("X", 1)] := by decide
    have hgroup : groupRows dbEx ("X", 1) = dbEx := by decide
    have hmax : zmaxD (dbEx.map (fun r => r.rss_mb)) = 30 := by decide
    show ((((dbEx.filter (fun r => decide (inWindow 0 10 r.timestamp))).map topKey).dedup.map
        (aggregateGroup (dbEx.filter (fun r => decide (inWindow 0 10 r.timestamp))))).insertionSort
        (fun a b => b.max_rss_mb ≤ a.max_rss_mb)).take 25 = [aggEx]
    rw [hfilter, hkeys]
    simp only [List.map_cons, List.map_nil]
    rw [show ([aggregateGroup dbEx ("X", 1)].insertionSort
        (fun a b => b.max_rss_mb ≤ a.max_rss_mb)).take 25
      = [aggregateGroup dbEx ("X", 1)] from rfl]
    simp only [aggregateGroup, hgroup, hmax, aggEx]
    norm_num [TopProcessAgg.mk.injEq, dbEx, List.sum_cons]

/-- Witness for C5: the group facts instantiated on the spec's three-sample
example — nonempty group, seen 3 times, max 30 attained, avg·3 = 60,
ratio·3 = 2, and ratio within `[0, 1]`. -/
theorem top_processes_correct_w :
    gEx ≠ [] ∧
    aggEx.times_seen = gEx.length ∧
    aggEx.max_rss_mb ∈ gEx.map (fun r => r.rss_mb) ∧
    aggEx.avg_rss_mb * (gEx.length : ℚ) = (gEx.map (fun r => (r.rss_mb : ℚ))).sum ∧
    aggEx.foreground_ratio * (gEx.length : ℚ)
      = (gEx.map (fun r => (r.is_foreground : ℚ))).sum ∧
    (0 ≤ aggEx.foreground_ratio ∧ aggEx.foreground_ratio ≤ 1) := by
  have hmem : aggEx ∈ fetch_top_processes dbEx 0 10 25 := by
    rw [top_processes_correct.2]
    exact List.mem_singleton.mpr rfl
  have h := (top_processes_correct.1 dbEx 0 10 25).2.2 aggEx hmem gEx rfl
  exact ⟨h.1, h.2.1, h.2.2.1, h.2.2.2.2.1, h.2.2.2.2.2.1,
    h.2.2.2.2.2.2 (by decide)⟩
